import Mathlib

/-!
Verification development for the squiggle node: a shallow embedding of the
per-space event store (`src/node/src/space/events.rs`, `db.rs`), the typed
entity round-trips (`space_events.rs`, `users.rs`, `tables.rs`, `secrets.rs`),
the gossip sync loop (`sync.rs`), the database merge path (`space.rs`), and
the job scheduling state machine (`src/node/src/vm/job.rs`, `scheduler.rs`,
`worker.rs`).

Modelling conventions:
- External content hashes (iroh blake3 `Hash`), UUIDs, SHA-256 digests and
  ed25519 signatures are opaque values; they are modelled as wrapped naturals.
  Their canonical string codecs (`to_string` / `from_str`) are modelled by the
  decimal codec on naturals, which shares the properties the code relies on:
  the encoder is injective, the decoder is partial and inverts the encoder.
- SQLite rows are typed tuples; TEXT/BLOB column codecs for the typed fields
  are elided (they are injective and inverted on values produced by the
  writer, which is the only path the claims exercise).
- `async` functions become pure functions; the blob store and the replicated
  document are passed in as explicit lookup functions or state values.
-/

set_option autoImplicit false

/-- Content hash (iroh `blobs::Hash`), opaque. -/
structure BHash where
  n : Nat
deriving DecidableEq, Repr

/-- UUID (`uuid::Uuid`), opaque. -/
structure Uuid where
  n : Nat
deriving DecidableEq, Repr

/-- SHA-256 digest (`Sha256Digest` in events.rs), opaque. -/
structure Sha256Digest where
  n : Nat
deriving DecidableEq, Repr

/-- ed25519 signature (`ed25519_dalek::Signature`), opaque. -/
structure Sig where
  n : Nat
deriving DecidableEq, Repr

/-- Author public key (`iroh::net::key::PublicKey`): 32 bytes. -/
structure PubKey where
  bytes : List Nat
deriving DecidableEq, Repr

/-- Signing identity (`iroh::docs::Author`): carries its public key and a
secret used for signing. -/
structure Author where
  pk : PubKey
  secret : Nat
deriving DecidableEq, Repr

/-- Decimal digit parser over a character list (accumulator form). -/
def digitsToNat : List Char → Nat → Option Nat
  | [], acc => some acc
  | c :: rest, acc =>
    if c.isDigit then digitsToNat rest (acc * 10 + (c.toNat - 48)) else none

/-- Decimal parse of a string into a natural; empty strings are rejected. -/
def decStringToNat (s : String) : Option Nat :=
  match s.data with
  | [] => none
  | cs => digitsToNat cs 0

/-- Canonical string rendering of a content hash (`Hash::to_string`),
modelled by the decimal codec. -/
def hashToString (h : BHash) : String := toString h.n

/-- Partial parse of a content hash (`Hash::from_str`). -/
def hashFromString (s : String) : Option BHash :=
  (decStringToNat s).map BHash.mk

/-- Canonical string rendering of a UUID (`Uuid::to_string`). -/
def uuidToString (u : Uuid) : String := toString u.n

/-- Partial parse of a UUID (`Uuid::parse_str`). -/
def uuidFromString (s : String) : Option Uuid :=
  (decStringToNat s).map Uuid.mk

/-- Injective encoding of strings into naturals, used by the digest model. -/
def natOfString (s : String) : Nat :=
  s.data.foldl (fun a c => a * 1114112 + c.toNat + 1) 1

/-- Encoding of a signed 64-bit timestamp into a natural. -/
def natOfInt (i : Int) : Nat :=
  if i < 0 then 2 * i.natAbs + 1 else 2 * i.natAbs

/-- The closed set of event kinds. Constructors `MutateUser` through
`DeleteRow` are the `EventKind` enum of `space/events.rs`; `MutateTable`,
`DeleteTable`, `MutateSecret`, `DeleteSecret` are referenced by the newer
entity modules (`tables.rs`, `secrets.rs`) whose `events.rs` generation is
not in the tree. Modelled from the spec: those four extra kinds with stable
numeric codes following the existing ones. -/
inductive EventKind where
  | MutateUser
  | DeleteUser
  | MutateSpace
  | DeleteSpace
  | MutateProgram
  | DeleteProgram
  | MutateSchema
  | DeleteSchema
  | MutateRow
  | DeleteRow
  | MutateTable
  | DeleteTable
  | MutateSecret
  | DeleteSecret
deriving DecidableEq, Repr

/-- `EventKind::kind`: the stable numeric code stored in SQL. -/
def EventKind.kindCode : EventKind → Nat
  | .MutateUser => 100000
  | .DeleteUser => 100001
  | .MutateSpace => 100002
  | .DeleteSpace => 100003
  | .MutateProgram => 100004
  | .DeleteProgram => 100005
  | .MutateSchema => 100006
  | .DeleteSchema => 100007
  | .MutateRow => 100008
  | .DeleteRow => 100009
  | .MutateTable => 100010
  | .DeleteTable => 100011
  | .MutateSecret => 100012
  | .DeleteSecret => 100013

/-- `EventKind::column_result` (the `FromSql` decoder in `space/events.rs`):
accepts exactly the codes 100000-100009 of the in-tree generation. -/
def kindFromCode (code : Nat) : Option EventKind :=
  if code = 100000 then some .MutateUser
  else if code = 100001 then some .DeleteUser
  else if code = 100002 then some .MutateSpace
  else if code = 100003 then some .DeleteSpace
  else if code = 100004 then some .MutateProgram
  else if code = 100005 then some .DeleteProgram
  else if code = 100006 then some .MutateSchema
  else if code = 100007 then some .DeleteSchema
  else if code = 100008 then some .MutateRow
  else if code = 100009 then some .DeleteRow
  else none

/-- A JSON payload, restricted to the shapes the modelled code inspects:
space/table metadata objects, and everything else as an opaque value. -/
inductive JsonVal where
  | spaceDetails (title : String) (description : String)
  | value (s : String)
deriving DecidableEq, Repr

/-- `HashLink`: a content hash with an optionally inlined value. The newer
entity modules carry an extra `size` hint; the `events.rs` generation in the
tree omits it (modelled as `none`). -/
structure HashLink where
  hash : BHash
  size : Option Nat
  data : Option JsonVal
deriving DecidableEq, Repr

/-- `Tag(String, String, Option<String>)`. -/
structure Tag where
  name : String
  value : String
  hint : Option String
deriving DecidableEq, Repr

/-- `Tag::new`. -/
def Tag.mkNew (name value : String) : Tag := ⟨name, value, none⟩

/-- A signed event (`Event` in `space/events.rs`). -/
structure Event where
  id : Sha256Digest
  pubkey : PubKey
  created_at : Int
  kind : EventKind
  tags : List Tag
  sig : Sig
  content : HashLink
deriving DecidableEq, Repr

/-- Encoding of a tag for the digest model. -/
def tagCode (t : Tag) : Nat :=
  Nat.pair (natOfString t.name)
    (Nat.pair (natOfString t.value)
      (match t.hint with
       | none => 0
       | some h => natOfString h + 1))

/-- Encoding of a tag list for the digest model. -/
def tagsCode (tags : List Tag) : Nat :=
  tags.foldl (fun a t => Nat.pair a (tagCode t + 1)) 0

/-- `Event::nostr_id`: the SHA-256 digest of the canonical JSON of the
6-tuple `(0, pubkey, created_at, kind, tags, content_hash)`. The digest is
modelled as a deterministic mixing of the components; collision freedom is
not relied upon anywhere. -/
def nostrId (pubkey : PubKey) (createdAt : Int) (kind : EventKind)
    (tags : List Tag) (content : BHash) : Sha256Digest :=
  ⟨Nat.pair (natOfString (String.join (pubkey.bytes.map toString)))
    (Nat.pair (natOfInt createdAt)
      (Nat.pair kind.kindCode (Nat.pair (tagsCode tags) content.n)))⟩

/-- `Author::sign` over a digest. -/
def authorSign (a : Author) (d : Sha256Digest) : Sig :=
  ⟨Nat.pair a.secret d.n⟩

/-- `Event::create`: computes the nostr id, signs it, and assembles the
event. The author's public key is the event `pubkey`. -/
def eventCreate (author : Author) (createdAt : Int) (kind : EventKind)
    (tags : List Tag) (content : HashLink) : Event :=
  let id := nostrId author.pk createdAt kind tags content.hash
  { id := id
    pubkey := author.pk
    created_at := createdAt
    kind := kind
    tags := tags
    sig := authorSign author id
    content := content }

/-- `Event::schema`: the first `sch` tag parsed as a content hash; a present
but unparsable value is an error. -/
def eventSchemaTag (e : Event) : Except String (Option BHash) :=
  match e.tags.find? (fun t => t.name = "sch") with
  | some t =>
    match hashFromString t.value with
    | some h => .ok (some h)
    | none => .error "invalid schema hash"
  | none => .ok none

/-- `Event::data_id`: the first `id` tag parsed as a UUID; a present but
unparsable value is an error. -/
def eventDataId (e : Event) : Except String (Option Uuid) :=
  match e.tags.find? (fun t => t.name = "id") with
  | some t =>
    match uuidFromString t.value with
    | some u => .ok (some u)
    | none => .error "invalid data id"
  | none => .ok none

/-- One row of the `events` table, with the fields of `EVENT_SQL_FIELDS`:
`id, pubkey, created_at, kind, schema, data_id, content, sig`. The `kind`
column stores the numeric code; `schema` and `data_id` are nullable at the
binding level (`data_id` is a NOT NULL column, enforced on insert). -/
structure SqlEventRow where
  id : Sha256Digest
  pubkey : PubKey
  created_at : Int
  kind : Nat
  schema : Option BHash
  data_id : Option Uuid
  content : BHash
  sig : Sig
deriving DecidableEq, Repr

/-- The column list named by `EVENT_SQL_FIELDS` in `space/events.rs`, used
by `Event::write`'s INSERT. -/
def eventSqlFields : List String :=
  ["id", "pubkey", "created_at", "kind", "schema", "data_id", "content", "sig"]

/-- The columns of the `events` table created by `setup_db` in
`space/db.rs`. -/
def setupDbEventColumns : List String :=
  ["id", "pubkey", "created_at", "kind", "schema_hash", "data_id", "sig",
   "content_hash", "content"]

/-- Whether every column named by the INSERT of `Event::write` exists in the
table created by `setup_db` (SQLite rejects the statement otherwise). -/
def insertColumnsOk : Bool :=
  eventSqlFields.all (fun c => setupDbEventColumns.contains c)

/-- The parameter computation of `Event::write`: derive the `schema` and
`data_id` columns from the tags, keep the remaining fields. -/
def eventToRow (e : Event) : Except String SqlEventRow := do
  let sch ← eventSchemaTag e
  let did ← eventDataId e
  .ok { id := e.id
        pubkey := e.pubkey
        created_at := e.created_at
        kind := e.kind.kindCode
        schema := sch
        data_id := did
        content := e.content.hash
        sig := e.sig }

/-- SQLite errors surfaced by the modelled INSERT. -/
inductive SqlError where
  | notNullViolation (column : String)
  | primaryKeyConflict
deriving DecidableEq, Repr

/-- The INSERT statement of `Event::write` against a table keyed by
`id PRIMARY KEY` with `data_id NOT NULL`: a plain INSERT, no upsert clause. -/
def insertRow (tbl : List SqlEventRow) (r : SqlEventRow) :
    Except SqlError (List SqlEventRow) :=
  if r.data_id.isNone then .error (.notNullViolation "data_id")
  else if tbl.any (fun x => x.id = r.id) then .error .primaryKeyConflict
  else .ok (tbl ++ [r])

/-- Errors of the ingest path. -/
inductive IngestError where
  | decode (msg : String)
  | sql (e : SqlError)
deriving DecidableEq, Repr

/-- `Event::write` end to end: compute the row and INSERT it. No signature
verification happens anywhere on this path. -/
def ingestEvent (tbl : List SqlEventRow) (e : Event) :
    Except IngestError (List SqlEventRow) :=
  match eventToRow e with
  | .error m => .error (.decode m)
  | .ok r =>
    match insertRow tbl r with
    | .error se => .error (.sql se)
    | .ok tbl' => .ok tbl'

/-- `Event::from_sql_row`: reconstruct an event from a stored row. The tags
are rebuilt as the `sch` tag (when the schema column is non-null) followed by
the `id` tag; the content link is the bare hash. -/
def rowToEvent (r : SqlEventRow) : Except String Event :=
  match r.data_id with
  | none => .error "null data id"
  | some d =>
    match kindFromCode r.kind with
    | none => .error "unknown event kind"
    | some k =>
      .ok { id := r.id
            pubkey := r.pubkey
            created_at := r.created_at
            kind := k
            tags :=
              (match r.schema with
               | some h => [Tag.mkNew "sch" (hashToString h)]
               | none => []) ++ [Tag.mkNew "id" (uuidToString d)]
            sig := r.sig
            content := ⟨r.content, none, none⟩ }

/-- The latest-event query of `Secrets::for_program_id`:
`SELECT ... WHERE kind = ?1 AND data_id = ?2 ORDER BY created_at DESC LIMIT 1`.
The ORDER BY clause names only `created_at`; among rows tied on `created_at`
the result follows the scan order of the table (SQLite leaves it
unspecified; the in-memory sorter preserves row order), modelled as the
earliest matching row with maximal `created_at`. `pickLatest` is the
row-selection step: keep the row seen so far unless a strictly more recent
one arrives. -/
def pickLatest (acc : Option SqlEventRow) (r : SqlEventRow) :
    Option SqlEventRow :=
  match acc with
  | none => some r
  | some m => if m.created_at < r.created_at then some r else acc

def forProgramIdQuery (tbl : List SqlEventRow) (kind : Nat) (dataId : Uuid) :
    Option SqlEventRow :=
  (tbl.filter (fun r => r.kind = kind && r.data_id = some dataId)).foldl
    pickLatest none

/-- A row value as built by `Table::mutate_row` (`Row` in the newer
generation: id, author pubkey, schema hash, timestamp, inlined content). -/
structure RowVal where
  id : Uuid
  created_at : Int
  author : PubKey
  content : HashLink
  schema : BHash
deriving DecidableEq, Repr

/-- `Row::into_mutate_event`: a `MutateRow` event tagged with the schema
hash and the row id. -/
def rowIntoMutateEvent (row : RowVal) (author : Author) : Event :=
  eventCreate author row.created_at .MutateRow
    [Tag.mkNew "sch" (hashToString row.schema),
     Tag.mkNew "id" (uuidToString row.id)]
    row.content

/-- `Table::mutate_row`: resolve the table's JSON-schema validator, validate
the candidate value, and only then blob the value, build the row, and write
the `MutateRow` event. The compiled validator is passed in (it wraps the
external `jsonschema` crate); `validate` returns an error message on
failure. The blob store assigns the content hash via `addBytes`. Returns the
call's result together with the resulting events table. -/
def mutateRow (validatorResult : Except String (JsonVal → Option String))
    (addBytes : JsonVal → BHash × Nat)
    (tbl : List SqlEventRow) (author : Author) (tableSchemaHash : BHash)
    (id : Uuid) (data : JsonVal) (now : Int) :
    Except String RowVal × List SqlEventRow :=
  match validatorResult with
  | .error e => (.error ("getting validator: " ++ e), tbl)
  | .ok validate =>
    match validate data with
    | some e => (.error ("validation error: " ++ e), tbl)
    | none =>
      let (hash, size) := addBytes data
      let row : RowVal :=
        { id := id
          created_at := now
          author := author.pk
          content := { hash := hash, size := some size, data := some data }
          schema := tableSchemaHash }
      let event := rowIntoMutateEvent row author
      match ingestEvent tbl event with
      | .error _ => (.error "inserting event", tbl)
      | .ok tbl' => (.ok row, tbl')

/-- The fixed adjective table of `get_blankname` (`users.rs`). -/
def adjectives : List String :=
  ["quick", "lazy", "sleepy", "noisy", "hungry", "happy", "sad", "angry",
   "brave", "calm", "eager", "fierce", "gentle", "jolly", "kind", "lively",
   "merry", "nice", "proud", "silly", "witty", "zealous", "bright", "dark",
   "shiny", "dull", "smooth", "rough", "soft", "hard"]

/-- The fixed color table of `get_blankname`. -/
def colorNames : List String :=
  ["red", "blue", "green", "yellow", "purple", "orange", "pink", "brown",
   "black", "white", "gray", "cyan", "magenta", "lime", "indigo", "violet",
   "gold", "silver", "bronze", "teal", "navy", "maroon", "olive", "coral",
   "peach", "mint", "lavender", "beige", "turquoise", "salmon"]

/-- The fixed animal table of `get_blankname`. -/
def animalNames : List String :=
  ["ant", "bat", "cat", "dog", "eel", "fox", "gnu", "hen", "ibis", "jay",
   "kiwi", "lynx", "mole", "newt", "owl", "pig", "quail", "rat", "seal",
   "toad", "urial", "vole", "wolf", "yak", "zebu", "bee", "cow", "duck",
   "frog", "goat"]

/-- `get_blankname`: index each table by the corresponding leading key byte
modulo the table length, and join the three picks with underscores. -/
def getBlankname (key : PubKey) : String :=
  let bytes := key.bytes
  let adjective := adjectives.getD (bytes.getD 0 0 % adjectives.length) ""
  let color := colorNames.getD (bytes.getD 1 0 % colorNames.length) ""
  let animal := animalNames.getD (bytes.getD 2 0 % animalNames.length) ""
  adjective ++ "_" ++ color ++ "_" ++ animal

/-- A `SpaceEvent` value (`space_events.rs`). -/
structure SpaceEventVal where
  id : Uuid
  created_at : Int
  author : PubKey
  content : HashLink
  title : String
deriving DecidableEq, Repr

/-- `SpaceEvent::into_mutate_event`: tags the space id and signs — with kind
`MutateSchema` (as written in the source). -/
def spaceEventIntoMutateEvent (x : SpaceEventVal) (author : Author) : Event :=
  eventCreate author x.created_at .MutateSchema
    [Tag.mkNew "id" (uuidToString x.id)] x.content

/-- `SpaceEvent::from_event`: accepts only `MutateSpace` events, then
resolves the content (from the inlined value or the blob store) and decodes
the `SpaceDetails` metadata from it. -/
def spaceEventFromEvent (blobGet : BHash → Option JsonVal) (e : Event) :
    Except String SpaceEventVal :=
  if e.kind ≠ EventKind.MutateSpace then
    .error "event is not a schema mutation"
  else
    match eventDataId e with
    | .error m => .error m
    | .ok none => .error "missing data id"
    | .ok (some id) =>
      match e.content.data with
      | none =>
        match blobGet e.content.hash with
        | none => .error "blob not found"
        | some v =>
          match v with
          | .spaceDetails title _ =>
            .ok { id := id
                  created_at := e.created_at
                  author := e.pubkey
                  content := { hash := e.content.hash, size := none,
                               data := some v }
                  title := title }
          | _ => .error "invalid space details"
      | some v =>
        match v with
        | .spaceDetails title _ =>
          .ok { id := id
                created_at := e.created_at
                author := e.pubkey
                content := e.content
                title := title }
        | _ => .error "invalid space details"

/-- Messages delivered to the gossip subscriber of `Sync::start`. -/
inductive GossipEvent where
  | neighborUp (peer : Nat)
  | neighborDown (peer : Nat)
  | received (message : List Nat)
  | joined (peers : List Nat)
  | lagged
deriving DecidableEq, Repr

/-- The body of the subscriber loop in `Sync::start`: every arm only emits a
tracing line; in particular a `Received` message is logged and dropped —
nothing touches the events table. Returns the (unchanged) events table and
the log lines. -/
def handleGossipEvent (tbl : List SqlEventRow) (ev : GossipEvent) :
    List SqlEventRow × List String :=
  match ev with
  | .neighborUp _ => (tbl, ["joined"])
  | .neighborDown _ => (tbl, ["left"])
  | .received _ => (tbl, ["message"])
  | .joined _ => (tbl, ["joined"])
  | .lagged => (tbl, ["gossip lagged"])

/-- Outcome of `Space::merge_db`. -/
inductive MergeOutcome where
  | merged (events : List SqlEventRow)
  | failed (msg : String)
  | panicked (msg : String)
deriving DecidableEq, Repr

/-- `Space::merge_db`: export the remote snapshot blob to disk, ATTACH it to
the local connection, and then hit the unconditional
`todo!("finish this")` — the re-ingest loop is commented out. Export and
ATTACH failures (I/O) are modelled by the `exportAndAttachOk` flag. -/
def mergeDb (exportAndAttachOk : Bool)
    (localEvents remoteEvents : List SqlEventRow) : MergeOutcome :=
  if exportAndAttachOk then .panicked "finish this"
  else .failed "export failed"

/-- `Spaces::add_or_sync_from_collection`, restricted to the branch where a
space with the decoded id already exists locally: it calls `merge_db` on the
remote snapshot hash. -/
def addOrSyncExistingSpace (exportAndAttachOk : Bool)
    (localEvents remoteEvents : List SqlEventRow) : MergeOutcome :=
  mergeDb exportAndAttachOk localEvents remoteEvents

/-- Worker identity (`iroh::docs::AuthorId`). -/
structure AuthorId where
  n : Nat
deriving DecidableEq, Repr

/-- `JobStatus` (`vm/job.rs`). -/
inductive JobStatus where
  | scheduling
  | assigned (w : AuthorId)
  | completed (w : AuthorId)
  | canceled (w : Option AuthorId)
deriving DecidableEq, Repr

/-- `JobStatus::merge`, returning the merged status together with the
`replaced` flag: `scheduling` advances on any `Assigned`, `Assigned(a)`
advances on `Completed(b)` only when `a = b`, and every other combination
keeps the current status. -/
def JobStatus.mergeWithFlag (s other : JobStatus) : JobStatus × Bool :=
  match s, other with
  | .scheduling, .assigned w => (.assigned w, true)
  | .assigned a, .completed b =>
    if a = b then (.completed b, true) else (.assigned a, false)
  | status, _ => (status, false)

/-- The merged status of `JobStatus::merge`. -/
def mergeStatus (s other : JobStatus) : JobStatus :=
  (JobStatus.mergeWithFlag s other).fst

/-- The status-marker fold of `Scheduler::get_job`: the first marker under
`jobs/status/<id>/` seeds the status, later markers are merged in. The doc
query yields markers in key order, i.e. sorted by their status token
(`assigned-<w>` < `canceled`/`canceled-<w>` < `completed-<w>` <
`scheduling`). -/
def mergedOf (markers : List JobStatus) : Option JobStatus :=
  match markers with
  | [] => none
  | s :: rest => some (rest.foldl mergeStatus s)

/-- Execution output of a job (`JobOutput`). -/
inductive JobOutput where
  | docker (code : Int) (stderr : String) (stdout : String)
  | wasm (output : String)
deriving DecidableEq, Repr

/-- `JobResultStatus`. -/
inductive JobResultStatus where
  | unknown
  | ok (out : JobOutput)
  | err (msg : String)
  | errTimeout
deriving DecidableEq, Repr

/-- Worker-side `ExecutionStatus`. -/
inductive ExecutionStatus where
  | Unknown
  | Requested
  | Skipped
  | Running
  | Completed
deriving DecidableEq, Repr

/-- What `tokio::time::timeout(timeout, execute_job(..))` produced: the
executor finished with output, finished with an error, or the timeout fired
first. -/
inductive ExecOutcome where
  | success (out : JobOutput)
  | failure (msg : String)
  | timedOut
deriving DecidableEq, Repr

/-- The `JobResultStatus` the worker derives from the executor outcome in
`Worker::handle_job_assignment`. -/
def resultStatusOf (o : ExecOutcome) : JobResultStatus :=
  match o with
  | .success out => .ok out
  | .failure msg => .err msg
  | .timedOut => .errTimeout

/-- Effects `Worker::handle_job_assignment` can perform on the replicated
doc and the scheduler. `cancelRequested` models a `Scheduler::cancel_job`
call; it is part of the action vocabulary because the flow runner
(`worker/flow.rs`) issues it on its own timeout path. -/
inductive WorkerAction where
  | publishedSkipped
  | publishedRunning
  | publishedCompleted (result : JobResultStatus)
  | warnedWrongPhase
  | cancelRequested
deriving DecidableEq, Repr

/-- `Worker::handle_job_assignment`: skip foreign assignments (publishing
`Skipped` when this worker had requested the job), drop duplicate
assignment events via the in-process guard, and otherwise — when still in
the `Requested` phase — publish `Running`, run the executor under the job's
declared timeout, and publish the result through the rewritten job blob
together with the `Completed` marker (`set_scheduled_job_result` →
`mark_job_completed`). Timeouts become `ErrTimeout` in the result; no arm
calls `Scheduler::cancel_job`. -/
def handleJobAssignment (isOurJob : Bool) (status : ExecutionStatus)
    (guardHeld : Bool) (outcome : ExecOutcome) : List WorkerAction :=
  if !isOurJob then
    if status = ExecutionStatus.Requested then [.publishedSkipped] else []
  else if guardHeld then []
  else if status = ExecutionStatus.Requested then
    [.publishedRunning, .publishedCompleted (resultStatusOf outcome)]
  else [.warnedWrongPhase]

/-- `Scheduler::handle_worker_execution_status_change`: on a worker's
`Requested` while the job is `scheduling`, assign it; on the assigned
worker's `Completed`, mark the job `completed(w)`. Returns the job-status
marker the scheduler writes, if any. -/
def schedulerOnWorkerStatus (current : Option JobStatus) (worker : AuthorId)
    (status : ExecutionStatus) : Option JobStatus :=
  match current with
  | some .scheduling =>
    if status = ExecutionStatus.Requested then some (.assigned worker) else none
  | some (.assigned w) =>
    if status = ExecutionStatus.Completed ∧ worker = w then
      some (.completed worker)
    else none
  | _ => none

/-- Sample event for exercising the ingest path: one `id` tag, no `sch`
tag. -/
def c1Event : Event :=
  { id := ⟨1⟩
    pubkey := ⟨[1, 2, 3]⟩
    created_at := 5
    kind := .MutateUser
    tags := [Tag.mkNew "id" "7"]
    sig := ⟨0⟩
    content := ⟨⟨3⟩, none, none⟩ }

/-- The row `Event::write` derives from `c1Event`. -/
def c1Row : SqlEventRow :=
  { id := ⟨1⟩
    pubkey := ⟨[1, 2, 3]⟩
    created_at := 5
    kind := 100000
    schema := none
    data_id := some ⟨7⟩
    content := ⟨3⟩
    sig := ⟨0⟩ }

/-- Stored secret event, inserted first: smaller event id. -/
def c8RowA : SqlEventRow :=
  { id := ⟨1⟩
    pubkey := ⟨[1, 2, 3]⟩
    created_at := 5
    kind := EventKind.MutateSecret.kindCode
    schema := none
    data_id := some ⟨4⟩
    content := ⟨3⟩
    sig := ⟨0⟩ }

/-- Stored secret event, inserted second: same `created_at`, larger event
id. -/
def c8RowB : SqlEventRow :=
  { id := ⟨2⟩
    pubkey := ⟨[1, 2, 3]⟩
    created_at := 5
    kind := EventKind.MutateSecret.kindCode
    schema := none
    data_id := some ⟨4⟩
    content := ⟨6⟩
    sig := ⟨0⟩ }

/-- Sample event with extra tags for the write/read round-trip. -/
def c10Event : Event :=
  { id := ⟨11⟩
    pubkey := ⟨[1, 2, 3]⟩
    created_at := 9
    kind := .MutateRow
    tags := [Tag.mkNew "e" "x", Tag.mkNew "sch" "5", Tag.mkNew "id" "7",
             Tag.mkNew "p" "y"]
    sig := ⟨2⟩
    content := ⟨⟨3⟩, some 10, some (.value "v")⟩ }

/-- The row `Event::write` derives from `c10Event`. -/
def c10Row : SqlEventRow :=
  { id := ⟨11⟩
    pubkey := ⟨[1, 2, 3]⟩
    created_at := 9
    kind := 100008
    schema := some ⟨5⟩
    data_id := some ⟨7⟩
    content := ⟨3⟩
    sig := ⟨2⟩ }

/-- Claim C2: importing a ticket for a space whose id already exists locally
calls `merge_db`, which is claimed to re-ingest the missing remote events
and return normally with the union of both event sets. The code instead
reaches `todo!("finish this")` right after attaching the remote snapshot:
the merge panics on every input and never produces a merged store. -/
theorem mergeDb_always_panics (localEvents remoteEvents : List SqlEventRow) :
    addOrSyncExistingSpace true localEvents remoteEvents =
      MergeOutcome.panicked "finish this" ∧
    ∀ (ok : Bool) (es : List SqlEventRow),
      addOrSyncExistingSpace ok localEvents remoteEvents ≠
        MergeOutcome.merged es := by
  refine ⟨rfl, ?_⟩
  intro ok es h
  cases ok <;> simp [addOrSyncExistingSpace, mergeDb] at h

/-- Claim C7: every event message received on the space's gossip topic is
claimed to be ingested into the EventStore. The subscriber loop in
`Sync::start` only logs a `Received` message and drops it: the events table
is unchanged and no ingest happens. -/
theorem sync_received_events_not_ingested (tbl : List SqlEventRow)
    (message : List Nat) :
    handleGossipEvent tbl (.received message) = (tbl, ["message"]) := rfl

/-- Claim C4: `from_event(into_mutate_event(x, author))` is claimed to
succeed for every typed entity. For `SpaceEvent` the round trip always
fails: `into_mutate_event` emits kind `MutateSchema` while `from_event`
accepts only `MutateSpace`, so the result is the kind-check error for every
value, author and blob store. -/
theorem spaceEvent_roundtrip_always_fails (x : SpaceEventVal) (author : Author)
    (blobGet : BHash → Option JsonVal) :
    spaceEventFromEvent blobGet (spaceEventIntoMutateEvent x author) =
      .error "event is not a schema mutation" := rfl

/-- Counterexample for claim C3: a `canceled-<w>` marker coexisting with an
earlier `assigned-<w>` marker (markers arrive in key order, `assigned-…`
before `canceled…`) does not win: the merged status stays `assigned(w)`. -/
theorem merge_canceled_not_winning_cex :
    mergedOf [JobStatus.assigned ⟨0⟩, JobStatus.canceled (some ⟨0⟩)] =
      some (JobStatus.assigned ⟨0⟩) ∧
    mergedOf [JobStatus.assigned ⟨0⟩, JobStatus.canceled (some ⟨0⟩)] ≠
      some (JobStatus.canceled (some ⟨0⟩)) := by decide

/-- Claim C3 (amended): the merged `JobStatus` advances `scheduling` to
`assigned(w)` for any worker and `assigned(w)` to `completed(w)` only for
the same worker; every other combination — including any `canceled*` marker
merged into an already-held status, and `completed` offered directly to
`scheduling` — keeps the current status, so a canceled marker prevails only
when it is the first marker observed. -/
theorem mergeStatus_transition_table (w v : AuthorId) (s : JobStatus)
    (c : Option AuthorId) :
    mergeStatus .scheduling (.assigned w) = .assigned w ∧
    mergeStatus (.assigned w) (.completed v) =
      (if w = v then .completed v else .assigned w) ∧
    mergeStatus s (.canceled c) = s ∧
    mergeStatus .scheduling (.completed w) = .scheduling ∧
    mergeStatus (.completed w) (.assigned v) = .completed w ∧
    mergeStatus (.canceled c) (.assigned v) = .canceled c := by
  refine ⟨rfl, ?_, ?_, rfl, rfl, rfl⟩
  · by_cases h : w = v <;> simp [mergeStatus, JobStatus.mergeWithFlag, h]
  · cases s <;> rfl

/-- Counterexample for claim C6: on a timed-out execution the worker is
claimed to additionally call `Scheduler::cancel`. The assignment handler's
timeout path publishes `Running` and then the `ErrTimeout` result with the
`Completed` marker; no arm requests a cancel. -/
theorem worker_timeout_never_cancels_cex :
    handleJobAssignment true .Requested false .timedOut =
      [WorkerAction.publishedRunning,
       WorkerAction.publishedCompleted JobResultStatus.errTimeout] ∧
    WorkerAction.cancelRequested ∉
      handleJobAssignment true .Requested false .timedOut := by decide

/-- Claim C6 (amended): when an assigned job's execution exceeds its
declared timeout, the worker produces a `JobResult` with status `ErrTimeout`
and reports it through the rewritten job blob together with its `Completed`
marker — without calling `Scheduler::cancel` — and the scheduler, seeing the
assigned worker's `Completed`, moves the job to `completed-<w>`. -/
theorem worker_timeout_reports_errTimeout_completed (w : AuthorId) :
    resultStatusOf .timedOut = .errTimeout ∧
    handleJobAssignment true .Requested false .timedOut =
      [WorkerAction.publishedRunning,
       WorkerAction.publishedCompleted JobResultStatus.errTimeout] ∧
    schedulerOnWorkerStatus (some (.assigned w)) w .Completed =
      some (.completed w) := by
  refine ⟨rfl, rfl, ?_⟩
  simp [schedulerOnWorkerStatus]

/-- Claim C1: ingest is claimed to verify the signature and then upsert by
id, duplicates being a no-op. On the code: the INSERT of `Event::write`
names a `schema` column that the `events` table of `setup_db` does not have
(it has `schema_hash`), so the statement cannot execute against the schema
it is paired with; modulo that, the write is a plain INSERT, so re-ingesting
the same event returns a primary-key-conflict error rather than succeeding
as a no-op; and the path never inspects the signature — an event with an
arbitrary (e.g. forged) signature is written just the same. -/
theorem ingest_unverified_and_duplicate_errors :
    insertColumnsOk = false ∧
    ingestEvent [] c1Event = .ok [c1Row] ∧
    ingestEvent [c1Row] c1Event = .error (IngestError.sql .primaryKeyConflict) ∧
    ∀ s : Sig,
      ingestEvent [] { c1Event with sig := s } = .ok [{ c1Row with sig := s }] := by
  refine ⟨by decide, rfl, rfl, ?_⟩
  intro s
  rfl

/-- Claim C5: `Table::mutate_row` JSON-schema-validates the candidate value
before anything is written: when the validator rejects the value, the call
returns the validation error and the events table is unchanged — no
`MutateRow` event is written. -/
theorem mutateRow_validation_failure_writes_nothing
    (validate : JsonVal → Option String) (addBytes : JsonVal → BHash × Nat)
    (tbl : List SqlEventRow) (author : Author) (tableSchemaHash : BHash)
    (id : Uuid) (data : JsonVal) (now : Int) (msg : String)
    (hv : validate data = some msg) :
    mutateRow (.ok validate) addBytes tbl author tableSchemaHash id data now =
      (.error ("validation error: " ++ msg), tbl) := by
  simp only [mutateRow]
  rw [hv]

/-- Witness for claim C5 at a concrete rejecting validator and candidate
value. -/
theorem mutateRow_validation_failure_writes_nothing_witness :
    mutateRow (.ok fun _ => some "type mismatch") (fun _ => (⟨0⟩, 0)) []
        ⟨⟨[1, 2, 3]⟩, 0⟩ ⟨9⟩ ⟨4⟩ (.value "bad") 100 =
      (.error ("validation error: " ++ "type mismatch"), []) :=
  mutateRow_validation_failure_writes_nothing (fun _ => some "type mismatch")
    (fun _ => (⟨0⟩, 0)) [] ⟨⟨[1, 2, 3]⟩, 0⟩ ⟨9⟩ ⟨4⟩ (.value "bad") 100
    "type mismatch" rfl

/-- Claim C9: the blankname derived from a public key is a deterministic
function of the key's first three bytes: pick
`adjectives[b0 % 30]`, `colors[b1 % 30]`, `animals[b2 % 30]` from the fixed
30-entry tables and join with underscores; keys agreeing on their first
three bytes always produce the same string. -/
theorem getBlankname_deterministic_tables (k : PubKey)
    (h : k.bytes.length = 32) :
    getBlankname k =
      adjectives.getD (k.bytes.getD 0 0 % 30) "" ++ "_" ++
        colorNames.getD (k.bytes.getD 1 0 % 30) "" ++ "_" ++
        animalNames.getD (k.bytes.getD 2 0 % 30) "" ∧
    adjectives.length = 30 ∧ colorNames.length = 30 ∧
    animalNames.length = 30 ∧
    ∀ k₂ : PubKey, k.bytes.getD 0 0 = k₂.bytes.getD 0 0 →
      k.bytes.getD 1 0 = k₂.bytes.getD 1 0 →
      k.bytes.getD 2 0 = k₂.bytes.getD 2 0 →
      getBlankname k = getBlankname k₂ := by
  refine ⟨rfl, rfl, rfl, rfl, ?_⟩
  intro k₂ h0 h1 h2
  simp only [getBlankname]
  rw [h0, h1, h2]

/-- Witness for claim C9 at the all-zero 32-byte key, whose blankname is
`quick_red_ant`. -/
theorem getBlankname_deterministic_tables_witness :
    getBlankname ⟨List.replicate 32 0⟩ =
      adjectives.getD ((List.replicate 32 0).getD 0 0 % 30) "" ++ "_" ++
        colorNames.getD ((List.replicate 32 0).getD 1 0 % 30) "" ++ "_" ++
        animalNames.getD ((List.replicate 32 0).getD 2 0 % 30) "" ∧
    adjectives.length = 30 ∧ colorNames.length = 30 ∧
    animalNames.length = 30 ∧
    ∀ k₂ : PubKey,
      (List.replicate 32 0 : List Nat).getD 0 0 = k₂.bytes.getD 0 0 →
      (List.replicate 32 0 : List Nat).getD 1 0 = k₂.bytes.getD 1 0 →
      (List.replicate 32 0 : List Nat).getD 2 0 = k₂.bytes.getD 2 0 →
      getBlankname ⟨List.replicate 32 0⟩ = getBlankname k₂ :=
  getBlankname_deterministic_tables ⟨List.replicate 32 0⟩ (by decide)

/-- Specification of the `pickLatest` fold: a produced row either was the
seed or came from the list, it is at least as recent as the seed, and it is
at least as recent as every list element. -/
theorem foldl_pickLatest_spec (l : List SqlEventRow) :
    ∀ (acc : Option SqlEventRow) (r : SqlEventRow),
      l.foldl pickLatest acc = some r →
      (acc = some r ∨ r ∈ l) ∧
      (∀ m, acc = some m → m.created_at ≤ r.created_at) ∧
      (∀ x ∈ l, x.created_at ≤ r.created_at) := by
  induction l with
  | nil =>
    intro acc r h
    refine ⟨Or.inl h, ?_, ?_⟩
    · intro m hm
      rw [hm] at h
      cases h
      exact le_refl _
    · intro x hx
      exact absurd hx (List.not_mem_nil x)
  | cons a t ih =>
    intro acc r h
    rw [List.foldl_cons] at h
    obtain ⟨hmem, hacc, hall⟩ := ih (pickLatest acc a) r h
    have ha_le : a.created_at ≤ r.created_at := by
      cases acc with
      | none => exact hacc a (by simp [pickLatest])
      | some m =>
        by_cases hlt : m.created_at < a.created_at
        · exact hacc a (by simp [pickLatest, hlt])
        · have hm := hacc m (by simp [pickLatest, hlt])
          exact le_trans (le_of_not_lt hlt) hm
    refine ⟨?_, ?_, ?_⟩
    · cases hmem with
      | inl hpa =>
        cases acc with
        | none =>
          simp [pickLatest] at hpa
          right
          rw [← hpa]
          exact List.mem_cons_self a t
        | some m =>
          by_cases hlt : m.created_at < a.created_at
          · simp [pickLatest, hlt] at hpa
            right
            rw [← hpa]
            exact List.mem_cons_self a t
          · simp [pickLatest, hlt] at hpa
            left
            rw [hpa]
      | inr hr =>
        right
        exact List.mem_cons_of_mem a hr
    · intro m hm
      subst hm
      by_cases hlt : m.created_at < a.created_at
      · exact le_of_lt (lt_of_lt_of_le hlt ha_le)
      · exact hacc m (by simp [pickLatest, hlt])
    · intro x hx
      rcases List.mem_cons.mp hx with hxa | hxt
      · rw [hxa]
        exact ha_le
      · exact hall x hxt

/-- Claim C8 (amended): for a `(kind, data_id)` with at least one matching
event, the latest-event query (`ORDER BY created_at DESC LIMIT 1`) returns a
matching event whose `created_at` is maximal among all matching events; the
ORDER BY clause names only `created_at`, so ties follow the underlying row
order rather than a lexicographic comparison of ids. -/
theorem latestQuery_returns_max_created_at (tbl : List SqlEventRow)
    (kind : Nat) (dataId : Uuid) (r : SqlEventRow)
    (h : forProgramIdQuery tbl kind dataId = some r) :
    r ∈ tbl ∧ r.kind = kind ∧ r.data_id = some dataId ∧
    ∀ r' ∈ tbl, r'.kind = kind → r'.data_id = some dataId →
      r'.created_at ≤ r.created_at := by
  obtain ⟨hmem, -, hall⟩ :=
    foldl_pickLatest_spec
      (tbl.filter (fun x => x.kind = kind && x.data_id = some dataId)) none r h
  rcases hmem with hnone | hmem
  · exact absurd hnone (by simp)
  · have hf := List.mem_filter.mp hmem
    obtain ⟨hin, hp⟩ := hf
    have hp' : r.kind = kind ∧ r.data_id = some dataId := by
      simpa using hp
    refine ⟨hin, hp'.1, hp'.2, ?_⟩
    intro r' hr' hk hd
    exact hall r' (List.mem_filter.mpr ⟨hr', by simp [hk, hd]⟩)

/-- Witness for claim C8 (amended) on a two-row table tied on
`created_at`. -/
theorem latestQuery_returns_max_created_at_witness :
    c8RowA ∈ [c8RowA, c8RowB] ∧
    c8RowA.kind = EventKind.MutateSecret.kindCode ∧
    c8RowA.data_id = some ⟨4⟩ ∧
    ∀ r' ∈ [c8RowA, c8RowB], r'.kind = EventKind.MutateSecret.kindCode →
      r'.data_id = some (⟨4⟩ : Uuid) → r'.created_at ≤ c8RowA.created_at :=
  latestQuery_returns_max_created_at [c8RowA, c8RowB]
    EventKind.MutateSecret.kindCode ⟨4⟩ c8RowA rfl

/-- Counterexample for claim C8: two stored events with the same `(kind,
data_id)` tie on `created_at`; the query returns the earlier row, whose id
is lexicographically smaller — not the event with the greater id. -/
theorem latestQuery_id_tiebreak_cex :
    forProgramIdQuery [c8RowA, c8RowB] EventKind.MutateSecret.kindCode ⟨4⟩ =
      some c8RowA ∧
    c8RowB.created_at = c8RowA.created_at ∧
    c8RowA.id.n < c8RowB.id.n ∧
    forProgramIdQuery [c8RowA, c8RowB] EventKind.MutateSecret.kindCode ⟨4⟩ ≠
      some c8RowB := by
  refine ⟨rfl, rfl, by decide, ?_⟩
  intro h
  exact absurd (Option.some.inj h) (by decide)

/-- Claim C10: an event written with `Event::write` and read back with
`Event::from_sql_row` keeps its id, pubkey, created_at, kind, content hash
and signature, while its tags are rebuilt as exactly the `sch` tag (present
iff the original carried one) followed by the `id` tag — every other tag of
the original event is silently discarded by the persistence round trip. -/
theorem event_write_read_roundtrip (e : Event) (r : SqlEventRow) (d : Uuid)
    (hw : eventToRow e = .ok r) (hd : r.data_id = some d)
    (hk : kindFromCode e.kind.kindCode = some e.kind) :
    rowToEvent r =
      .ok { id := e.id
            pubkey := e.pubkey
            created_at := e.created_at
            kind := e.kind
            tags := (match r.schema with
                     | some h => [Tag.mkNew "sch" (hashToString h)]
                     | none => []) ++ [Tag.mkNew "id" (uuidToString d)]
            sig := e.sig
            content := ⟨e.content.hash, none, none⟩ } ∧
    (r.schema.isSome ↔ (e.tags.find? (fun t => t.name = "sch")).isSome) := by
  simp only [eventToRow, Bind.bind, Except.bind] at hw
  cases hsch : eventSchemaTag e with
  | error m =>
    rw [hsch] at hw
    cases hw
  | ok sch =>
    rw [hsch] at hw
    cases hdid : eventDataId e with
    | error m =>
      rw [hdid] at hw
      cases hw
    | ok did =>
      rw [hdid] at hw
      simp only [Except.ok.injEq] at hw
      subst hw
      simp only at hd
      constructor
      · simp only [rowToEvent, hd, hk]
      · cases hfind : e.tags.find? (fun t => t.name = "sch") with
        | none =>
          have h2 := hsch
          simp only [eventSchemaTag, hfind, Except.ok.injEq] at h2
          rw [← h2]
          simp
        | some t =>
          cases hparse : hashFromString t.value with
          | none =>
            have h2 := hsch
            simp only [eventSchemaTag, hfind, hparse] at h2
            exact Except.noConfusion h2
          | some hsh =>
            have h2 := hsch
            simp only [eventSchemaTag, hfind, hparse, Except.ok.injEq] at h2
            rw [← h2]
            simp

/-- Witness for claim C10 at a concrete event carrying extra `e` and `p`
tags, which the round trip discards. -/
theorem event_write_read_roundtrip_witness :
    rowToEvent c10Row =
      .ok { id := c10Event.id
            pubkey := c10Event.pubkey
            created_at := c10Event.created_at
            kind := c10Event.kind
            tags := (match c10Row.schema with
                     | some h => [Tag.mkNew "sch" (hashToString h)]
                     | none => []) ++ [Tag.mkNew "id" (uuidToString ⟨7⟩)]
            sig := c10Event.sig
            content := ⟨c10Event.content.hash, none, none⟩ } ∧
    (c10Row.schema.isSome ↔
      (c10Event.tags.find? (fun t => t.name = "sch")).isSome) :=
  event_write_read_roundtrip c10Event c10Row ⟨7⟩ rfl rfl rfl
